import Mathlib

/-!
Verification of the request-routing and caching middleware pipeline of the
cf-jacred-fdb edge gateway (a Cloudflare Worker written in TypeScript).

The development shallowly embeds the relevant source functions:

* `src/lib/apiKey.ts` — `stripApiKeyParams`
* `src/lib/fetching.ts` — `buildCacheKey`, `fetchUpstream`, `cachedFetch`
* `src/lib/security.ts` — `addStandardResponseHeaders`
* `src/lib/routing.ts` — `RULES`, `mapUpstreamPath`
* `src/config.ts` — `parseEnvInt`, `resolveConfig`
* `src/lib/constants.ts` — exempt-path predicates and defaults
* `src/lib/torrserver.ts` — the validation part of `handleTorrServerAdd`
* `src/middleware/upstream.ts`, `src/middleware/conf.ts` — the API-key gates

URLs are modelled as a base plus an ordered list of query parameters
(`URLSearchParams` keeps insertion order; `delete` removes every pair with the
given name).  HTTP header maps are modelled as ordered association lists with
case-insensitive names, matching the WHATWG `Headers` class.  The platform
`fetch`, the cache store and the WHATWG URL parser are inputs (oracles) of the
embedded functions, so that a function's decision logic is total and
executable.
-/

/-! ## JS-style string helpers -/

/-- JS truthiness of a nullable string: `null`/`undefined` and `""` are falsy. -/
def jsTruthy (s : Option String) : Bool := s.getD "" ≠ ""

/-! ## URL model (base plus ordered query parameters) -/

/-- A URL: everything except the query string, plus the ordered query-parameter
list, mirroring the WHATWG `URL` / `URLSearchParams` pair. -/
structure UrlM where
  base : String
  params : List (String × String)
deriving DecidableEq, Repr

/-- `url.searchParams.delete(name)`: removes every parameter with that exact
name, keeping the order of the remaining ones. -/
def spDelete (u : UrlM) (name : String) : UrlM :=
  { u with params := u.params.filter (fun p => !(p.fst == name)) }

/-- `url.searchParams.has(name)`. -/
def spHas (u : UrlM) (name : String) : Bool :=
  u.params.any (fun p => p.fst == name)

theorem any_filter_not_self (l : List (String × String)) (n : String) :
    (l.filter (fun p => !(p.fst == n))).any (fun p => p.fst == n) = false := by
  induction l with
  | nil => rfl
  | cons a t ih =>
    rw [List.filter_cons]
    by_cases h : a.fst = n
    · rw [if_neg (by simp [h])]
      exact ih
    · rw [if_pos (by simp [h]), List.any_cons, ih]
      simp [h]

theorem any_filter_not_other (l : List (String × String)) (n m : String)
    (hnm : m ≠ n) :
    (l.filter (fun p => !(p.fst == n))).any (fun p => p.fst == m) =
      l.any (fun p => p.fst == m) := by
  induction l with
  | nil => rfl
  | cons a t ih =>
    rw [List.filter_cons]
    by_cases h : a.fst = n
    · have hb : (a.fst == m) = false := by
        rw [h]
        simp
        exact fun hc => hnm hc.symm
      rw [if_neg (by simp [h]), ih, List.any_cons, hb, Bool.false_or]
    · rw [if_pos (by simp [h]), List.any_cons, List.any_cons, ih]

theorem spHas_spDelete_self (u : UrlM) (n : String) :
    spHas (spDelete u n) n = false := by
  have h := any_filter_not_self u.params n
  simp only [spHas, spDelete]
  exact h

theorem spHas_spDelete_other (u : UrlM) (n m : String) (hnm : m ≠ n) :
    spHas (spDelete u n) m = spHas u m := by
  have h := any_filter_not_other u.params n m hnm
  simp only [spHas, spDelete]
  exact h

/-! ## `src/lib/apiKey.ts` — `stripApiKeyParams` -/

/-- Embedding of `stripApiKeyParams(url)` from `src/lib/apiKey.ts`.  The source
mutates the URL in place and returns whether anything was removed; the
embedding returns the updated URL together with that flag:

    let removed = false;
    if (url.searchParams.has('apikey')) { url.searchParams.delete('apikey'); removed = true; }
    if (url.searchParams.has('api_key')) { url.searchParams.delete('api_key'); removed = true; }
    return removed;
-/
def stripApiKeyParams (url : UrlM) : UrlM × Bool :=
  let r1 := spHas url "apikey"
  let u1 := if r1 then spDelete url "apikey" else url
  let r2 := spHas u1 "api_key"
  let u2 := if r2 then spDelete u1 "api_key" else u1
  (u2, r1 || r2)

theorem stripApiKeyParams_no_keys (u : UrlM)
    (h1 : spHas u "apikey" = false) (h2 : spHas u "api_key" = false) :
    stripApiKeyParams u = (u, false) := by
  simp [stripApiKeyParams, h1, h2]

theorem stripApiKeyParams_fst_clean (u : UrlM) :
    spHas (stripApiKeyParams u).fst "apikey" = false ∧
      spHas (stripApiKeyParams u).fst "api_key" = false := by
  cases hr1 : spHas u "apikey" with
  | true =>
    cases hr2 : spHas (spDelete u "apikey") "api_key" with
    | true =>
      simp only [stripApiKeyParams, hr1, hr2, if_true]
      constructor
      · rw [spHas_spDelete_other _ _ _ (by decide), spHas_spDelete_self]
      · rw [spHas_spDelete_self]
    | false =>
      simp only [stripApiKeyParams, hr1, hr2, if_true, Bool.false_eq_true,
        if_false]
      exact ⟨spHas_spDelete_self u "apikey", trivial⟩
  | false =>
    cases hr2 : spHas u "api_key" with
    | true =>
      simp only [stripApiKeyParams, hr1, hr2, if_true, Bool.false_eq_true,
        if_false]
      constructor
      · rw [spHas_spDelete_other _ _ _ (by decide)]
        exact hr1
      · rw [spHas_spDelete_self]
    | false =>
      simp only [stripApiKeyParams, hr1, hr2, Bool.false_eq_true, if_false]
      exact ⟨trivial, trivial⟩

/-- Claim C9: `stripApiKeyParams` is idempotent — applying it a second time to
the URL produced by a first application leaves the URL unchanged and reports
`false` (nothing removed) — and on a URL that carries neither an `apikey` nor an
`api_key` query parameter it returns the URL unchanged together with `false`. -/
theorem stripApiKeyParams_idempotent (u : UrlM) :
    (stripApiKeyParams (stripApiKeyParams u).fst =
        ((stripApiKeyParams u).fst, false)) ∧
      (spHas u "apikey" = false → spHas u "api_key" = false →
        stripApiKeyParams u = (u, false)) := by
  constructor
  · have h := stripApiKeyParams_fst_clean u
    exact stripApiKeyParams_no_keys _ h.1 h.2
  · intro h1 h2
    exact stripApiKeyParams_no_keys u h1 h2

/-- Witness for C9 at a concrete URL carrying both spellings of the key and a
second concrete URL carrying neither. -/
theorem stripApiKeyParams_idempotent_witness :
    (stripApiKeyParams
        (stripApiKeyParams
            ⟨"http://up/api/v1.0/torrents",
              [("search", "foo"), ("apikey", "K1"), ("api_key", "K2")]⟩).fst =
        (⟨"http://up/api/v1.0/torrents", [("search", "foo")]⟩, false)) ∧
      (spHas ⟨"http://up/x", [("q", "1")]⟩ "apikey" = false ∧
        stripApiKeyParams ⟨"http://up/x", [("q", "1")]⟩ =
          (⟨"http://up/x", [("q", "1")]⟩, false)) := by
  have h := stripApiKeyParams_idempotent
    ⟨"http://up/api/v1.0/torrents",
      [("search", "foo"), ("apikey", "K1"), ("api_key", "K2")]⟩
  have h2 := stripApiKeyParams_idempotent ⟨"http://up/x", [("q", "1")]⟩
  refine ⟨?_, by decide, h2.2 (by decide) (by decide)⟩
  have hfst : (stripApiKeyParams
      ⟨"http://up/api/v1.0/torrents",
        [("search", "foo"), ("apikey", "K1"), ("api_key", "K2")]⟩).fst =
      ⟨"http://up/api/v1.0/torrents", [("search", "foo")]⟩ := by decide
  rw [hfst] at h
  exact h.1

/-! ## `src/lib/fetching.ts` — `buildCacheKey` -/

/-- A cache key as built by `buildCacheKey`: a `Request` value whose only
relevant components are the normalized URL and the forced method. -/
structure CacheKeyM where
  method : String
  url : UrlM
deriving DecidableEq, Repr

/-- Embedding of `buildCacheKey(request, upstreamUrl)` from
`src/lib/fetching.ts`.  The `request` argument is unused by the source body,
which parses `upstreamUrl`, deletes the `_`, `apikey` and `api_key` query
parameters and returns `new Request(u.toString(), { method: 'GET' })`:

    const u = new URL(upstreamUrl);
    u.searchParams.delete('_');
    u.searchParams.delete('apikey');
    u.searchParams.delete('api_key');
    return new Request(u.toString(), { method: 'GET' });
-/
def buildCacheKey (upstreamUrl : UrlM) : CacheKeyM :=
  let u1 := spDelete upstreamUrl "_"
  let u2 := spDelete u1 "apikey"
  let u3 := spDelete u2 "api_key"
  { method := "GET", url := u3 }

/-- The three successive `searchParams.delete` calls amount to one filter over
the parameter list. -/
def cacheStrippedParams (l : List (String × String)) : List (String × String) :=
  ((l.filter (fun p => !(p.fst == "_"))).filter
      (fun p => !(p.fst == "apikey"))).filter (fun p => !(p.fst == "api_key"))

theorem buildCacheKey_eq (u : UrlM) :
    buildCacheKey u = ⟨"GET", ⟨u.base, cacheStrippedParams u.params⟩⟩ := rfl

theorem mem_cacheStrippedParams (l : List (String × String))
    (p : String × String) (hp : p ∈ cacheStrippedParams l) :
    p.fst ≠ "apikey" ∧ p.fst ≠ "api_key" ∧ p.fst ≠ "_" := by
  simp only [cacheStrippedParams, List.mem_filter, Bool.not_eq_eq_eq_not,
    Bool.not_true, beq_eq_false_iff_ne] at hp
  exact ⟨hp.1.2, hp.2, hp.1.1.2⟩

/-- Claim C1: every cache key built by `buildCacheKey` carries no `apikey`,
`api_key` or `_` query parameter and its method is `GET`; consequently any two
upstream URLs that agree outside of those three parameters (in particular two
URLs differing only in the value or presence of `apikey`/`api_key`, or only in
the `_` cache-buster) produce identical cache keys. -/
theorem buildCacheKey_normalizes (u : UrlM) :
    (∀ p ∈ (buildCacheKey u).url.params,
        p.fst ≠ "apikey" ∧ p.fst ≠ "api_key" ∧ p.fst ≠ "_") ∧
      (buildCacheKey u).method = "GET" ∧
      (∀ v : UrlM, u.base = v.base →
        cacheStrippedParams u.params = cacheStrippedParams v.params →
        buildCacheKey u = buildCacheKey v) := by
  refine ⟨?_, rfl, ?_⟩
  · intro p hp
    rw [buildCacheKey_eq] at hp
    exact mem_cacheStrippedParams u.params p hp
  · intro v hbase hparams
    rw [buildCacheKey_eq, buildCacheKey_eq, hbase, hparams]

/-- Witness for C1: two concrete upstream URLs that differ only in the value of
`apikey` and in the presence of the `_` cache-buster map to the same cache key,
whose parameter list retains only the `search` parameter. -/
theorem buildCacheKey_normalizes_witness :
    ((⟨"http://up/api/v1.0/torrents",
          [("search", "foo"), ("apikey", "K1"), ("_", "1700000000")]⟩ : UrlM).base =
        (⟨"http://up/api/v1.0/torrents",
          [("search", "foo"), ("api_key", "K2")]⟩ : UrlM).base) ∧
      buildCacheKey
          ⟨"http://up/api/v1.0/torrents",
            [("search", "foo"), ("apikey", "K1"), ("_", "1700000000")]⟩ =
        buildCacheKey
          ⟨"http://up/api/v1.0/torrents", [("search", "foo"), ("api_key", "K2")]⟩ := by
  refine ⟨rfl, ?_⟩
  exact (buildCacheKey_normalizes
      ⟨"http://up/api/v1.0/torrents",
        [("search", "foo"), ("apikey", "K1"), ("_", "1700000000")]⟩).2.2
    ⟨"http://up/api/v1.0/torrents", [("search", "foo"), ("api_key", "K2")]⟩
    rfl (by decide)

/-! ## Header maps (WHATWG `Headers`): case-insensitive names -/

/-- ASCII lowercasing of a string, used for the case-insensitive header-name
comparison performed by the WHATWG `Headers` class.  (Defined over the char
list so that it reduces inside the kernel, unlike `String.toLower`.) -/
def lowerStr (s : String) : String := String.mk (s.data.map Char.toLower)

/-- An HTTP header map, as an ordered association list.  Name lookup is
case-insensitive, as in the WHATWG `Headers` class. -/
abbrev HeadersM := List (String × String)

/-- `headers.get(name)` (case-insensitive; `none` plays the role of `null`). -/
def hGet (h : HeadersM) (name : String) : Option String :=
  (h.find? (fun p => (lowerStr p.fst) == (lowerStr name))).map Prod.snd

/-- `headers.has(name)`. -/
def hHas (h : HeadersM) (name : String) : Bool :=
  h.any (fun p => (lowerStr p.fst) == (lowerStr name))

/-- `headers.delete(name)`. -/
def hDelete (h : HeadersM) (name : String) : HeadersM :=
  h.filter (fun p => !((lowerStr p.fst) == (lowerStr name)))

/-- `headers.set(name, value)`: replaces any existing entry for the name. -/
def hSet (h : HeadersM) (name : String) (value : String) : HeadersM :=
  hDelete h name ++ [(name, value)]

theorem hGet_hDelete (h : HeadersM) (n m : String) :
    hGet (hDelete h n) m =
      if (lowerStr m) = (lowerStr n) then none else hGet h m := by
  induction h with
  | nil => simp [hGet, hDelete]
  | cons a t ih =>
    simp only [hDelete, List.filter_cons] at ih ⊢
    by_cases han : (lowerStr a.fst) = (lowerStr n)
    · rw [if_neg (by simp [han])]
      rw [ih]
      by_cases hmn : (lowerStr m) = (lowerStr n)
      · rw [if_pos hmn, if_pos hmn]
      · rw [if_neg hmn, if_neg hmn]
        have ham : ((lowerStr a.fst) == (lowerStr m)) = false := by
          rw [han]
          simp
          exact fun hc => hmn hc.symm
        simp [hGet, List.find?_cons, ham]
    · rw [if_pos (by simp [han])]
      by_cases ham : (lowerStr a.fst) = (lowerStr m)
      · have hmn : ¬ (lowerStr m) = (lowerStr n) := by
          rw [← ham]
          exact han
        rw [if_neg hmn]
        simp [hGet, List.find?_cons, ham]
      · simp only [hGet, List.find?_cons] at ih ⊢
        rw [show ((lowerStr a.fst) == (lowerStr m)) = false by simp [ham]]
        simp only [cond_false]
        exact ih
    
theorem hGet_hSet (h : HeadersM) (n v m : String) :
    hGet (hSet h n v) m =
      if (lowerStr m) = (lowerStr n) then some v else hGet h m := by
  have hdel := hGet_hDelete h n m
  simp only [hGet] at hdel
  simp only [hSet, hGet, List.find?_append]
  cases hfind : List.find? (fun p => (lowerStr p.fst) == (lowerStr m)) (hDelete h n) with
  | some p =>
    rw [hfind] at hdel
    by_cases hmn : (lowerStr m) = (lowerStr n)
    · rw [if_pos hmn] at hdel
      exact absurd hdel (by simp)
    · rw [if_neg hmn] at hdel
      rw [if_neg hmn, ← hdel]
      rfl
  | none =>
    rw [hfind] at hdel
    by_cases hmn : (lowerStr m) = (lowerStr n)
    · rw [if_pos hmn]
      have hb : ((lowerStr n) == (lowerStr m)) = true := by
        rw [hmn]
        simp
      simp [List.find?_cons, hb]
    · rw [if_neg hmn] at hdel
      rw [if_neg hmn, ← hdel]
      have hb : ((lowerStr n) == (lowerStr m)) = false := by
        simp
        exact fun hc => hmn hc.symm
      simp [List.find?_cons, hb]

/-! ## `src/lib/fetching.ts` — `fetchUpstream` -/

/-- The inbound request as seen by `fetchUpstream`: method, header map and the
opaque body buffer (`request.arrayBuffer()` yields a — possibly empty — byte
buffer). -/
structure RequestM where
  method : String
  headers : HeadersM
  body : List Nat
deriving DecidableEq, Repr

/-- The outbound `RequestInit` assembled by `fetchUpstream` before the
timeout-bounded `fetch` call; `body = none` means no body field is attached. -/
structure UpstreamInit where
  method : String
  headers : HeadersM
  body : Option (List Nat)
deriving DecidableEq, Repr

/-- Embedding of the request-assembly part of `fetchUpstream(upstreamUrl,
request, timeoutMs)` from `src/lib/fetching.ts`:

    const init = { method: request.method, headers: new Headers(request.headers), redirect: 'follow' };
    init.headers.delete('host');
    init.headers.delete('cookie');
    if (request.method !== 'GET' && request.method !== 'HEAD')
      init.body = await request.arrayBuffer();
    return fetchWithTimeout(upstreamUrl, init, timeoutMs);

The network call itself (`fetchWithTimeout`) is a platform primitive and is
left abstract; the theorem is about the `init` value handed to it. -/
def fetchUpstreamInit (request : RequestM) : UpstreamInit :=
  let hs := hDelete (hDelete request.headers "host") "cookie"
  { method := request.method
  , headers := hs
  , body :=
      if request.method ≠ "GET" ∧ request.method ≠ "HEAD" then some request.body
      else none }

/-- Claim C10: the outbound upstream request carries the inbound headers with
exactly `host` and `cookie` removed (case-insensitively) — in particular
inbound cookies are never forwarded — and a body is attached exactly when the
method is neither GET nor HEAD. -/
theorem fetchUpstreamInit_spec (request : RequestM) :
    (∀ name : String, (lowerStr name) = "host" ∨ (lowerStr name) = "cookie" →
        hGet (fetchUpstreamInit request).headers name = none) ∧
      (∀ name : String, (lowerStr name) ≠ "host" → (lowerStr name) ≠ "cookie" →
        hGet (fetchUpstreamInit request).headers name = hGet request.headers name) ∧
      (fetchUpstreamInit request).method = request.method ∧
      ((fetchUpstreamInit request).body = some request.body ↔
        request.method ≠ "GET" ∧ request.method ≠ "HEAD") ∧
      ((fetchUpstreamInit request).body = none ↔
        request.method = "GET" ∨ request.method = "HEAD") := by
  refine ⟨?_, ?_, rfl, ?_, ?_⟩
  · intro name hname
    show hGet (hDelete (hDelete request.headers "host") "cookie") name = none
    rw [hGet_hDelete, hGet_hDelete]
    cases hname with
    | inl hh => rw [if_neg (by rw [hh]; decide), if_pos (by rw [hh]; decide)]
    | inr hc => rw [if_pos (by rw [hc]; decide)]
  · intro name hh hc
    show hGet (hDelete (hDelete request.headers "host") "cookie") name =
      hGet request.headers name
    rw [hGet_hDelete, hGet_hDelete,
      if_neg (by show ¬ (lowerStr name) = "cookie"; exact hc),
      if_neg (by show ¬ (lowerStr name) = "host"; exact hh)]
  · show (if request.method ≠ "GET" ∧ request.method ≠ "HEAD"
        then some request.body else none) = some request.body ↔
      request.method ≠ "GET" ∧ request.method ≠ "HEAD"
    by_cases hm : request.method ≠ "GET" ∧ request.method ≠ "HEAD"
    · rw [if_pos hm]
      simp [hm]
    · rw [if_neg hm]
      simp [hm]
  · show (if request.method ≠ "GET" ∧ request.method ≠ "HEAD"
        then some request.body else none) = none ↔
      request.method = "GET" ∨ request.method = "HEAD"
    by_cases hm : request.method ≠ "GET" ∧ request.method ≠ "HEAD"
    · rw [if_pos hm]
      constructor
      · intro hcontra
        exact absurd hcontra (by simp)
      · intro hor
        cases hor with
        | inl h1 => exact absurd h1 hm.1
        | inr h2 => exact absurd h2 hm.2
    · rw [if_neg hm]
      constructor
      · intro _
        by_cases hg : request.method = "GET"
        · exact Or.inl hg
        · refine Or.inr ?_
          by_cases hd : request.method = "HEAD"
          · exact hd
          · exact absurd ⟨hg, hd⟩ hm
      · intro _
        rfl

/-- Witness for C10 at a concrete POST request carrying `Host`, `Cookie` and
`Accept` headers: the non-excluded header survives, `Cookie` does not, and a
body is attached. -/
theorem fetchUpstreamInit_spec_witness :
    hGet (fetchUpstreamInit
        ⟨"POST", [("Host", "edge"), ("Cookie", "sid=1"), ("Accept", "application/json")], [1, 2]⟩).headers
      "Cookie" = none ∧
    hGet (fetchUpstreamInit
        ⟨"POST", [("Host", "edge"), ("Cookie", "sid=1"), ("Accept", "application/json")], [1, 2]⟩).headers
      "Accept" = some "application/json" ∧
    (fetchUpstreamInit
        ⟨"POST", [("Host", "edge"), ("Cookie", "sid=1"), ("Accept", "application/json")], [1, 2]⟩).body
      = some [1, 2] := by
  have h := fetchUpstreamInit_spec
    ⟨"POST", [("Host", "edge"), ("Cookie", "sid=1"), ("Accept", "application/json")], [1, 2]⟩
  refine ⟨h.1 "Cookie" (Or.inr (by decide)), ?_, ?_⟩
  · rw [h.2.1 "Accept" (by decide) (by decide)]
    decide
  · exact (h.2.2.2.1).mpr ⟨by decide, by decide⟩

/-! ## Kernel-reducible string helpers mirroring the JS operations -/

/-- `t` occurs at the start of `s` (JS `String.startsWith`). -/
def strStartsWith (s t : String) : Bool := List.isPrefixOf t.data s.data

/-- `t` occurs at the end of `s` (JS `String.endsWith`). -/
def strEndsWith (s t : String) : Bool := List.isSuffixOf t.data s.data

/-- Drop the first `n` characters (JS `String.substring(n)` for ASCII data). -/
def strDrop (s : String) (n : Nat) : String := String.mk (s.data.drop n)

/-- Keep the first `n` characters. -/
def strTake (s : String) (n : Nat) : String := String.mk (s.data.take n)

/-- Drop the last `n` characters. -/
def strDropRight (s : String) (n : Nat) : String :=
  String.mk (s.data.take (s.data.length - n))

/-- JS `String.trim` (restricted to the ASCII whitespace actually appearing in
HTTP header values). -/
def jsTrim (s : String) : String :=
  String.mk
    (((s.data.dropWhile Char.isWhitespace).reverse.dropWhile
        Char.isWhitespace).reverse)

/-- Split a character list at every occurrence of `sep`, JS
`String.split(sep)` style (an empty input yields one empty field). -/
def splitOnCharList (sep : Char) : List Char → List (List Char)
  | [] => [[]]
  | c :: rest =>
    let r := splitOnCharList sep rest
    if c = sep then [] :: r
    else
      match r with
      | [] => [[c]]
      | h :: t => (c :: h) :: t

/-- JS `s.split(',')`. -/
def jsSplitComma (s : String) : List String :=
  (splitOnCharList ',' s.data).map String.mk

/-- `sub` occurs somewhere in the character list. -/
def containsSubList (sub : List Char) : List Char → Bool
  | [] => sub.isEmpty
  | c :: rest => List.isPrefixOf sub (c :: rest) || containsSubList sub rest

/-- `sub` occurs somewhere in `s` (used for the `/no-cache|no-store/` test). -/
def strContainsSub (s sub : String) : Bool := containsSubList sub.data s.data

/-- `/no-cache|no-store/i.test(cc)` from `cachedFetch`: case-insensitive
substring test on the request `Cache-Control` value. -/
def ccBypass (cc : String) : Bool :=
  strContainsSub (lowerStr cc) "no-cache" || strContainsSub (lowerStr cc) "no-store"

/-! ## `src/lib/security.ts` — `addStandardResponseHeaders` -/

/-- `CORS_HEADERS` from `src/lib/constants.ts`. -/
def CORS_HEADERS : HeadersM :=
  [("Access-Control-Allow-Origin", "*"),
   ("Access-Control-Allow-Methods", "GET,HEAD,OPTIONS,POST"),
   ("Access-Control-Allow-Headers", "Content-Type, If-None-Match, Cache-Control")]

/-- `if (!h.has(n)) h.set(n, v)` — the guarded sets inside
`addStandardResponseHeaders`. -/
def setIfAbsent (h : HeadersM) (n v : String) : HeadersM :=
  if hHas h n then h else hSet h n v

/-- Embedding of `addStandardResponseHeaders(h)` from `src/lib/security.ts`:
unconditional sets for `X-Content-Type-Options` and `Referrer-Policy`,
set-if-absent for the other security headers and the default `Cache-Control`,
then every `CORS_HEADERS` entry is set unconditionally. -/
def addStandardResponseHeaders (h : HeadersM) : HeadersM :=
  CORS_HEADERS.foldl (fun acc p => hSet acc p.fst p.snd)
    (setIfAbsent
      (setIfAbsent
        (setIfAbsent
          (setIfAbsent
            (setIfAbsent
              (hSet (hSet h "X-Content-Type-Options" "nosniff")
                "Referrer-Policy" "no-referrer")
              "X-Frame-Options" "DENY")
            "Cross-Origin-Opener-Policy" "same-origin")
          "Cross-Origin-Resource-Policy" "same-origin")
        "Permissions-Policy"
          "geolocation=(), microphone=(), camera=(), fullscreen=(self)")
      "Cache-Control" "public, max-age=60")

theorem hGet_setIfAbsent_other (h : HeadersM) (n v m : String)
    (hne : lowerStr m ≠ lowerStr n) :
    hGet (setIfAbsent h n v) m = hGet h m := by
  unfold setIfAbsent
  by_cases hh : hHas h n
  · rw [if_pos hh]
  · rw [if_neg hh, hGet_hSet, if_neg hne]

theorem hGet_addStandard_vary (h : HeadersM) :
    hGet (addStandardResponseHeaders h) "Vary" = hGet h "Vary" := by
  unfold addStandardResponseHeaders CORS_HEADERS
  simp only [List.foldl]
  rw [hGet_hSet, if_neg (by decide), hGet_hSet, if_neg (by decide),
    hGet_hSet, if_neg (by decide),
    hGet_setIfAbsent_other _ _ _ _ (by decide),
    hGet_setIfAbsent_other _ _ _ _ (by decide),
    hGet_setIfAbsent_other _ _ _ _ (by decide),
    hGet_setIfAbsent_other _ _ _ _ (by decide),
    hGet_setIfAbsent_other _ _ _ _ (by decide),
    hGet_hSet, if_neg (by decide), hGet_hSet, if_neg (by decide)]

/-! ## ETag normalization and conditional-revalidation tokens -/

/-- `.replace(/^W\//i, '')`: strip a weak-validator marker. -/
def stripWeak (s : String) : String :=
  if lowerStr (strTake s 2) = "w/" then strDrop s 2 else s

/-- `.replace(/^"|"$/g, '')`: strip one leading and one trailing quote. -/
def stripQuotes (s : String) : String :=
  let s1 := if strStartsWith s "\"" then strDrop s 1 else s
  if strEndsWith s1 "\"" then strDropRight s1 1 else s1

/-- Normalization applied by `cachedFetch` to both the `If-None-Match` tokens
and the cached `ETag`. -/
def normalizeEtag (s : String) : String := stripQuotes (stripWeak s)

/-- The token list derived from an `If-None-Match` header value:

    inm.split(',').map(trim).filter(Boolean).map(strip W/ and quotes)
-/
def inmTokens (inm : String) : List String :=
  (((jsSplitComma inm).map jsTrim).filter (fun t => t ≠ "")).map normalizeEtag

/-- `Set.add` over a JS `Set` kept as an insertion-ordered duplicate-free
list. -/
def setAdd (l : List String) (x : String) : List String :=
  if l.contains x then l else l ++ [x]

/-- The `Vary` token set built for a 304: the existing `Vary` tokens,
deduplicated, with `Accept` and `If-None-Match` added. -/
def varyTokenList (existingVary : String) : List String :=
  setAdd
    (setAdd
      ((((jsSplitComma existingVary).map jsTrim).filter
          (fun t => t ≠ "")).foldl setAdd [])
      "Accept")
    "If-None-Match"

theorem mem_setAdd_self (l : List String) (x : String) : x ∈ setAdd l x := by
  unfold setAdd
  by_cases hc : l.contains x
  · rw [if_pos hc]
    simpa using hc
  · rw [if_neg hc]
    exact List.mem_append_right l (List.mem_singleton.mpr rfl)

theorem mem_setAdd_mono (l : List String) (x y : String) (hx : x ∈ l) :
    x ∈ setAdd l y := by
  unfold setAdd
  by_cases hc : l.contains y
  · rw [if_pos hc]
    exact hx
  · rw [if_neg hc]
    exact List.mem_append_left _ hx

theorem accept_mem_varyTokenList (v : String) : "Accept" ∈ varyTokenList v :=
  mem_setAdd_mono _ _ _ (mem_setAdd_self _ _)

theorem inm_mem_varyTokenList (v : String) :
    "If-None-Match" ∈ varyTokenList v :=
  mem_setAdd_self _ _

/-! ## `src/lib/fetching.ts` — `cachedFetch` -/

/-- An HTTP response: status, header map and body (`none` models a `null`
body as used by the 304 path; the cached/upstream payload is an opaque
string). -/
structure ResponseM where
  status : Nat
  headers : HeadersM
  body : Option String
deriving DecidableEq, Repr

/-- `Response.ok`: status in the 2xx range. -/
def respOk (r : ResponseM) : Bool := decide (200 ≤ r.status) && decide (r.status ≤ 299)

/-- The 304 response assembled by `cachedFetch` on a conditional cache hit,
from the hit headers `h` (already carrying `CF-Cache-Status`) and the raw
cached `ETag` value:

    const h304 = new Headers();
    h304.set('ETag', cachedEtag);
    if (h.has('Cache-Control')) h304.set('Cache-Control', h.get('Cache-Control') || '');
    const existingVary = h.has('Vary') ? h.get('Vary') || '' : '';
    ...tokens... varyTokens.add('Accept'); varyTokens.add('If-None-Match');
    h304.set('Vary', Array.from(varyTokens).join(', '));
    addStandardResponseHeaders(h304);
    h304.set('CF-Cache-Status', 'HIT');
    return new Response(null, { status: 304, headers: h304 });
-/
def build304 (h : HeadersM) (cachedEtag : String) : ResponseM :=
  let h304a : HeadersM := hSet [] "ETag" cachedEtag
  let h304b :=
    if hHas h "Cache-Control" then
      hSet h304a "Cache-Control" ((hGet h "Cache-Control").getD "")
    else h304a
  let existingVary := if hHas h "Vary" then (hGet h "Vary").getD "" else ""
  let h304c :=
    hSet h304b "Vary" (String.intercalate ", " (varyTokenList existingVary))
  let h304d := addStandardResponseHeaders h304c
  let h304e := hSet h304d "CF-Cache-Status" "HIT"
  { status := 304, headers := h304e, body := none }

/-- What `cachedFetch` produced: the response handed to the caller and the
entry written into the edge cache (`none` when nothing is written).  The write
in the source is fire-and-forget (`ctx.waitUntil(cache.put(...))`), so the
returned response is never derived from it. -/
structure FetchOutcome where
  response : ResponseM
  cacheWrite : Option ResponseM
deriving DecidableEq, Repr

/-- Embedding of `cachedFetch(ctx, upstreamUrl, request, timeoutMs)` from
`src/lib/fetching.ts`.  The platform pieces are inputs: `cacheLookup` is the
result of `cache.match(cacheKey)` and `upstreamResp` the response that
`fetchUpstream` would deliver (the fetch only happens in the branches that
reach it).  Timeout and URL handling do not influence the branching and are
omitted. -/
def cachedFetch (cacheLookup : Option ResponseM) (upstreamResp : ResponseM)
    (request : RequestM) : FetchOutcome :=
  if request.method ≠ "GET" then ⟨upstreamResp, none⟩
  else if ccBypass ((hGet request.headers "Cache-Control").getD "") then
    ⟨upstreamResp, none⟩
  else
    match cacheLookup with
    | some resp =>
      let h := hSet resp.headers "CF-Cache-Status" "HIT"
      let inm := (hGet request.headers "If-None-Match").getD ""
      let cachedEtag := (hGet h "ETag").getD ""
      if inm ≠ "" ∧ cachedEtag ≠ "" then
        if ((inmTokens inm).contains (normalizeEtag cachedEtag) ||
            (inmTokens inm).contains "*") then
          ⟨build304 h cachedEtag, none⟩
        else ⟨⟨resp.status, h, resp.body⟩, none⟩
      else ⟨⟨resp.status, h, resp.body⟩, none⟩
    | none =>
      if respOk upstreamResp then
        ⟨upstreamResp,
          some ⟨upstreamResp.status,
            hSet upstreamResp.headers "Cache-Control"
              "public, max-age=60, s-maxage=300",
            upstreamResp.body⟩⟩
      else ⟨upstreamResp, none⟩

theorem hGet_build304_vary (h : HeadersM) (etag : String) :
    hGet (build304 h etag).headers "Vary" =
      some (String.intercalate ", "
        (varyTokenList (if hHas h "Vary" then (hGet h "Vary").getD "" else ""))) := by
  unfold build304
  simp only []
  rw [hGet_hSet, if_neg (by decide), hGet_addStandard_vary, hGet_hSet,
    if_pos rfl]

theorem cachedFetch_hit_eq (resp upstreamResp : ResponseM) (request : RequestM)
    (hm : request.method = "GET")
    (hcc : ccBypass ((hGet request.headers "Cache-Control").getD "") = false) :
    cachedFetch (some resp) upstreamResp request =
      (if ((hGet request.headers "If-None-Match").getD "" ≠ "" ∧
          (hGet (hSet resp.headers "CF-Cache-Status" "HIT") "ETag").getD "" ≠ "")
        then
          (if ((inmTokens ((hGet request.headers "If-None-Match").getD
                "")).contains (normalizeEtag ((hGet (hSet resp.headers
                  "CF-Cache-Status" "HIT") "ETag").getD "")) ||
              (inmTokens ((hGet request.headers "If-None-Match").getD
                "")).contains "*") = true
            then ⟨build304 (hSet resp.headers "CF-Cache-Status" "HIT")
                ((hGet (hSet resp.headers "CF-Cache-Status" "HIT")
                  "ETag").getD ""), none⟩
            else ⟨⟨resp.status, hSet resp.headers "CF-Cache-Status" "HIT",
                resp.body⟩, none⟩)
        else ⟨⟨resp.status, hSet resp.headers "CF-Cache-Status" "HIT",
            resp.body⟩, none⟩) := by
  unfold cachedFetch
  rw [if_neg (not_not_intro hm), if_neg (by rw [hcc]; simp)]

/-- Claim C2: on a GET cache hit where the request carries a non-empty
`If-None-Match` and the cached response a non-empty `ETag`, if after stripping
the weak-validator marker and quotes some request token equals the cached ETag
or some token is `*`, `cachedFetch` answers 304 with a `null` body and a `Vary`
header whose token set contains `Accept` and `If-None-Match` (the wildcard case
is independent of the stored ETag's value because `*` is one of the compared
tokens); if no token matches, the cached body is returned with the cached
status. -/
theorem cachedFetch_conditional_hit (resp upstreamResp : ResponseM)
    (request : RequestM)
    (hm : request.method = "GET")
    (hcc : ccBypass ((hGet request.headers "Cache-Control").getD "") = false)
    (hinm : (hGet request.headers "If-None-Match").getD "" ≠ "")
    (hetag : (hGet resp.headers "ETag").getD "" ≠ "") :
    (((inmTokens ((hGet request.headers "If-None-Match").getD "")).contains
          (normalizeEtag ((hGet resp.headers "ETag").getD "")) ||
        (inmTokens ((hGet request.headers "If-None-Match").getD "")).contains
          "*") = true →
      (cachedFetch (some resp) upstreamResp request).response.status = 304 ∧
      (cachedFetch (some resp) upstreamResp request).response.body = none ∧
      ∃ ts : List String,
        hGet (cachedFetch (some resp) upstreamResp request).response.headers
            "Vary" = some (String.intercalate ", " ts) ∧
        "Accept" ∈ ts ∧ "If-None-Match" ∈ ts) ∧
    (((inmTokens ((hGet request.headers "If-None-Match").getD "")).contains
          (normalizeEtag ((hGet resp.headers "ETag").getD "")) ||
        (inmTokens ((hGet request.headers "If-None-Match").getD "")).contains
          "*") = false →
      (cachedFetch (some resp) upstreamResp request).response.status =
          resp.status ∧
      (cachedFetch (some resp) upstreamResp request).response.body =
          resp.body) := by
  have hE : hGet (hSet resp.headers "CF-Cache-Status" "HIT") "ETag" =
      hGet resp.headers "ETag" := by
    rw [hGet_hSet, if_neg (by decide)]
  have hstep : cachedFetch (some resp) upstreamResp request =
      (if ((inmTokens ((hGet request.headers "If-None-Match").getD "")).contains
            (normalizeEtag ((hGet resp.headers "ETag").getD "")) ||
          (inmTokens ((hGet request.headers "If-None-Match").getD "")).contains
            "*") = true
        then ⟨build304 (hSet resp.headers "CF-Cache-Status" "HIT")
                ((hGet resp.headers "ETag").getD ""), none⟩
        else ⟨⟨resp.status, hSet resp.headers "CF-Cache-Status" "HIT",
                resp.body⟩, none⟩) := by
    unfold cachedFetch
    rw [if_neg (not_not_intro hm), if_neg (by rw [hcc]; simp)]
    simp only [hE]
    rw [if_pos ⟨hinm, hetag⟩]
  constructor
  · intro hmatch
    rw [hstep, if_pos hmatch]
    refine ⟨rfl, rfl, varyTokenList
        (if hHas (hSet resp.headers "CF-Cache-Status" "HIT") "Vary" then
          (hGet (hSet resp.headers "CF-Cache-Status" "HIT") "Vary").getD ""
        else ""), ?_, accept_mem_varyTokenList _, inm_mem_varyTokenList _⟩
    exact hGet_build304_vary _ _
  · intro hmatch
    rw [hstep, if_neg (by rw [hmatch]; simp)]
    exact ⟨rfl, rfl⟩

/-- Witness for C2: a concrete cache hit with `ETag: "abc"` and
`If-None-Match: W/"abc"` yields a 304 with `null` body and a `Vary` token set
covering `Accept` and `If-None-Match`. -/
theorem cachedFetch_conditional_hit_witness :
    (cachedFetch
        (some ⟨200, [("ETag", "\"abc\"")], some "BODY"⟩)
        ⟨200, [], none⟩
        ⟨"GET", [("If-None-Match", "W/\"abc\"")], []⟩).response.status = 304 ∧
    (cachedFetch
        (some ⟨200, [("ETag", "\"abc\"")], some "BODY"⟩)
        ⟨200, [], none⟩
        ⟨"GET", [("If-None-Match", "W/\"abc\"")], []⟩).response.body = none ∧
    ∃ ts : List String,
      hGet (cachedFetch
          (some ⟨200, [("ETag", "\"abc\"")], some "BODY"⟩)
          ⟨200, [], none⟩
          ⟨"GET", [("If-None-Match", "W/\"abc\"")], []⟩).response.headers
        "Vary" = some (String.intercalate ", " ts) ∧
      "Accept" ∈ ts ∧ "If-None-Match" ∈ ts :=
  (cachedFetch_conditional_hit
      ⟨200, [("ETag", "\"abc\"")], some "BODY"⟩
      ⟨200, [], none⟩
      ⟨"GET", [("If-None-Match", "W/\"abc\"")], []⟩
      rfl (by decide) (by decide) (by decide)).1 (by decide)

/-- Claim C7: `cachedFetch` writes to the cache only on a GET request without
`no-cache`/`no-store`, whose lookup missed and whose upstream response is 2xx;
the entry written carries `Cache-Control: public, max-age=60, s-maxage=300` and
the upstream response itself is returned unchanged (the write is handed to
`ctx.waitUntil`, never awaited before returning); non-2xx upstream responses
are returned and never written. -/
theorem cachedFetch_write_frame (cacheLookup : Option ResponseM)
    (upstreamResp : ResponseM) (request : RequestM) :
    ((cachedFetch cacheLookup upstreamResp request).cacheWrite ≠ none →
      request.method = "GET" ∧
      ccBypass ((hGet request.headers "Cache-Control").getD "") = false ∧
      cacheLookup = none ∧ respOk upstreamResp = true) ∧
    (∀ entry : ResponseM,
      (cachedFetch cacheLookup upstreamResp request).cacheWrite = some entry →
      hGet entry.headers "Cache-Control" =
          some "public, max-age=60, s-maxage=300" ∧
      entry.status = upstreamResp.status ∧ entry.body = upstreamResp.body ∧
      (cachedFetch cacheLookup upstreamResp request).response = upstreamResp) ∧
    (respOk upstreamResp = false →
      (cachedFetch cacheLookup upstreamResp request).cacheWrite = none ∧
      (cacheLookup = none →
        (cachedFetch cacheLookup upstreamResp request).response =
          upstreamResp)) := by
  by_cases hm : request.method = "GET"
  · by_cases hcc : ccBypass ((hGet request.headers "Cache-Control").getD "") =
        true
    · have hout : cachedFetch cacheLookup upstreamResp request =
          ⟨upstreamResp, none⟩ := by
        unfold cachedFetch
        rw [if_neg (not_not_intro hm), if_pos hcc]
      rw [hout]
      exact ⟨fun hc => absurd rfl hc, fun e he => Option.noConfusion he,
        fun _ => ⟨rfl, fun _ => rfl⟩⟩
    · cases cacheLookup with
      | some resp =>
        have hw : (cachedFetch (some resp) upstreamResp request).cacheWrite =
            none := by
          rw [cachedFetch_hit_eq resp upstreamResp request hm
            (eq_false_of_ne_true hcc)]
          split
          · split
            · rfl
            · rfl
          · rfl
        refine ⟨fun hc => absurd hw hc, fun e he => absurd (hw ▸ he)
          (fun hcon => Option.noConfusion hcon), fun _ => ⟨hw, fun hcl =>
            Option.noConfusion hcl⟩⟩
      | none =>
        by_cases hok : respOk upstreamResp = true
        · have hout : cachedFetch none upstreamResp request =
              ⟨upstreamResp,
                some ⟨upstreamResp.status,
                  hSet upstreamResp.headers "Cache-Control"
                    "public, max-age=60, s-maxage=300",
                  upstreamResp.body⟩⟩ := by
            unfold cachedFetch
            rw [if_neg (not_not_intro hm), if_neg (fun hc => hcc hc),
              if_pos hok]
          rw [hout]
          refine ⟨fun _ => ⟨hm, eq_false_of_ne_true hcc, rfl, hok⟩,
            fun e he => ?_, fun hnok => absurd hok (by rw [hnok]; simp)⟩
          cases he
          exact ⟨by rw [hGet_hSet, if_pos rfl], rfl, rfl, rfl⟩
        · have hout : cachedFetch none upstreamResp request =
              ⟨upstreamResp, none⟩ := by
            unfold cachedFetch
            rw [if_neg (not_not_intro hm), if_neg (fun hc => hcc hc),
              if_neg hok]
          rw [hout]
          exact ⟨fun hc => absurd rfl hc, fun e he => Option.noConfusion he,
            fun _ => ⟨rfl, fun _ => rfl⟩⟩
  · have hout : cachedFetch cacheLookup upstreamResp request =
        ⟨upstreamResp, none⟩ := by
      unfold cachedFetch
      rw [if_pos hm]
    rw [hout]
    exact ⟨fun hc => absurd rfl hc, fun e he => Option.noConfusion he,
      fun _ => ⟨rfl, fun _ => rfl⟩⟩

/-- Witness for C7: a concrete GET miss with a 200 upstream response produces a
cache write whose entry carries the standard success `Cache-Control`. -/
theorem cachedFetch_write_frame_witness :
    ∃ entry : ResponseM,
      (cachedFetch none ⟨200, [("X-A", "b")], some "OK"⟩
          ⟨"GET", [], []⟩).cacheWrite = some entry ∧
      hGet entry.headers "Cache-Control" =
        some "public, max-age=60, s-maxage=300" ∧
      entry.status = 200 ∧
      (cachedFetch none ⟨200, [("X-A", "b")], some "OK"⟩
          ⟨"GET", [], []⟩).response = ⟨200, [("X-A", "b")], some "OK"⟩ := by
  refine ⟨⟨200, hSet [("X-A", "b")] "Cache-Control"
      "public, max-age=60, s-maxage=300", some "OK"⟩, by decide, ?_⟩
  have h := (cachedFetch_write_frame none ⟨200, [("X-A", "b")], some "OK"⟩
      ⟨"GET", [], []⟩).2.1
      ⟨200, hSet [("X-A", "b")] "Cache-Control"
        "public, max-age=60, s-maxage=300", some "OK"⟩ (by decide)
  exact ⟨h.1, h.2.1, h.2.2.2⟩

/-! ## `src/lib/routing.ts` — `RULES` and `mapUpstreamPath` -/

/-- The `/^\/v\d/` test of rule 5: a leading `/v` followed by a digit. -/
def versionedTest (a : String) : Bool :=
  match a.data with
  | '/' :: 'v' :: c :: _ => c.isDigit
  | _ => false

/-- Embedding of the declarative `RULES` list from `src/lib/routing.ts`; each
entry is the rule's test (regexes translated to the string predicates they
denote) paired with its target resolver, in source order:

1. `/^(\/conf\/?$)/` → `/api/v1.0/conf`
2. `startsWith('/torrents')` → `/api/v1.0/torrents`
3. `/^(\/stats\/?$)/` → `/stats`
4. `startsWith('/stats/')` → passthrough
5. `/^\/v\d/` → `'/api' + path`
6. catch-all → `'/api' + path`
-/
def RULES : List ((String → Bool) × (String → String)) :=
  [ (fun a => a == "/conf" || a == "/conf/", fun _ => "/api/v1.0/conf")
  , (fun a => strStartsWith a "/torrents", fun _ => "/api/v1.0/torrents")
  , (fun a => a == "/stats" || a == "/stats/", fun _ => "/stats")
  , (fun a => strStartsWith a "/stats/", fun a => a)
  , (fun a => versionedTest a, fun a => "/api" ++ a)
  , (fun _ => true, fun a => "/api" ++ a) ]

/-- Embedding of `mapUpstreamPath(pathname)` from `src/lib/routing.ts`: drop
the local `/api` mount point (`LOCAL_PREFIX.length = 4` characters), apply the
first matching rule, with the source's (unreachable) fallback after the
loop. -/
def mapUpstreamPath (pathname : String) : String :=
  let after := strDrop pathname 4
  match RULES.find? (fun r => r.fst after) with
  | some r => r.snd after
  | none => "/api" ++ after

theorem mapUpstreamPath_total (s : String) :
    (RULES.find? (fun r => r.fst (strDrop s 4))).isSome = true := by
  cases hfind : RULES.find? (fun r => r.fst (strDrop s 4)) with
  | some r => rfl
  | none =>
    have hall := List.find?_eq_none.mp hfind
    have hmem : ((fun _ : String => true), (fun a : String => "/api" ++ a)) ∈
        RULES := by
      simp [RULES]
    exact absurd rfl (hall _ hmem)

/-- Counterexample for C4: `mapUpstreamPath('/api/torrents?x=1')` evaluates to
`/api/v1.0/torrents` — rule 2 discards everything after the `/torrents`
match — so the claimed output `'/api/v1.0/torrents?x=1'` (the versioned path
with the query untouched) is not produced. -/
theorem mapUpstreamPath_query_dropped :
    mapUpstreamPath "/api/torrents?x=1" = "/api/v1.0/torrents" ∧
      mapUpstreamPath "/api/torrents?x=1" ≠ "/api/v1.0/torrents?x=1" := by
  decide

/-- Claim C4 (amended): `mapUpstreamPath` is total — some rule always matches,
so a string is always returned and nothing throws — and on the claimed inputs:
`/api/conf` → `/api/v1.0/conf`; `/api/torrents?x=1` → `/api/v1.0/torrents`
(the suffix after `/torrents`, including any query text, is dropped — in the
pipeline the query is carried separately on the upstream URL);
`/api/stats/foo` → `/stats/foo`; `/api/v2/bar` → `/api/v2/bar`;
`/api/unknown/thing` → `/api/unknown/thing`. -/
theorem mapUpstreamPath_spec :
    (∀ s : String,
      (RULES.find? (fun r => r.fst (strDrop s 4))).isSome = true) ∧
    mapUpstreamPath "/api/conf" = "/api/v1.0/conf" ∧
    mapUpstreamPath "/api/torrents?x=1" = "/api/v1.0/torrents" ∧
    mapUpstreamPath "/api/stats/foo" = "/stats/foo" ∧
    mapUpstreamPath "/api/v2/bar" = "/api/v2/bar" ∧
    mapUpstreamPath "/api/unknown/thing" = "/api/unknown/thing" :=
  ⟨mapUpstreamPath_total, by decide, by decide, by decide, by decide,
    by decide⟩

/-! ## `src/config.ts` — `parseEnvInt` and `resolveConfig` -/

/-- The maximal leading digit run of a character list. -/
def leadingDigits (cs : List Char) : List Char := cs.takeWhile (fun c => c.isDigit)

/-- Base-10 value of a digit run. -/
def digitsToNat (cs : List Char) : Nat :=
  cs.foldl (fun acc c => acc * 10 + (c.toNat - 48)) 0

/-- Parse a maximal digit run; `none` when there is none (→ `NaN`). -/
def parseDigits (cs : List Char) : Option Nat :=
  let d := leadingDigits cs
  if d.isEmpty then none else some (digitsToNat d)

/-- JS `parseInt(s, 10)`: skip leading whitespace, read an optional sign and
then a maximal digit run; no digits means `NaN` (modelled as `none`). -/
def jsParseInt10 (s : String) : Option Int :=
  let cs := s.data.dropWhile (fun c => c.isWhitespace)
  match cs with
  | '-' :: rest => (parseDigits rest).map (fun n => -(n : Int))
  | '+' :: rest => (parseDigits rest).map (fun n => (n : Int))
  | _ => (parseDigits cs).map (fun n => (n : Int))

/-- Embedding of `parseEnvInt(value, defaultValue, name)` from `src/config.ts`
(the `name` argument only feeds the `console.warn` diagnostic and is
omitted):

    if (!value || value.trim() === '') return defaultValue;
    const parsed = parseInt(value, 10);
    if (Number.isNaN(parsed) || parsed <= 0) { console.warn(...); return defaultValue; }
    return parsed;
-/
def parseEnvInt (value : Option String) (defaultValue : Int) : Int :=
  match value with
  | none => defaultValue
  | some v =>
    if v = "" then defaultValue
    else if jsTrim v = "" then defaultValue
    else
      match jsParseInt10 v with
      | none => defaultValue
      | some parsed => if parsed ≤ 0 then defaultValue else parsed

/-- `DEFAULT_UPSTREAM_TIMEOUT_MS` from `src/lib/constants.ts`. -/
def DEFAULT_UPSTREAM_TIMEOUT_MS : Int := 30000

/-- `DEFAULT_TORRSERVER_TIMEOUT_MS` from `src/lib/constants.ts`. -/
def DEFAULT_TORRSERVER_TIMEOUT_MS : Int := 15000

/-- `DEFAULT_UPSTREAM_ORIGIN` from `src/lib/constants.ts`. -/
def DEFAULT_UPSTREAM_ORIGIN : String := "http://redapi.cfhttp.top"

/-- The environment bindings consumed by `resolveConfig` (`EnvLike`). -/
structure EnvM where
  UPSTREAM_ORIGIN : Option String := none
  API_KEY : Option String := none
  UPSTREAM_TIMEOUT_MS : Option String := none
  TORRSERVER_TIMEOUT_MS : Option String := none
deriving DecidableEq, Repr

/-- `getUpstreamOrigin(env)` from `src/lib/constants.ts`: the configured origin
when truthy, else the hardcoded default. -/
def getUpstreamOrigin (env : EnvM) : String :=
  if jsTruthy env.UPSTREAM_ORIGIN then env.UPSTREAM_ORIGIN.getD ""
  else DEFAULT_UPSTREAM_ORIGIN

/-- `ResolvedConfig` from `src/config.ts`. -/
structure ResolvedConfig where
  upstreamOrigin : String
  upstreamTimeoutMs : Int
  torrTimeoutMs : Int
deriving DecidableEq, Repr

/-- Embedding of `resolveConfig(env)` from `src/config.ts` (the variant whose
timeouts go through the validating `parseEnvInt`). -/
def resolveConfig (env : EnvM) : ResolvedConfig :=
  { upstreamOrigin := getUpstreamOrigin env
  , upstreamTimeoutMs :=
      parseEnvInt env.UPSTREAM_TIMEOUT_MS DEFAULT_UPSTREAM_TIMEOUT_MS
  , torrTimeoutMs :=
      parseEnvInt env.TORRSERVER_TIMEOUT_MS DEFAULT_TORRSERVER_TIMEOUT_MS }

theorem parseEnvInt_pos (value : Option String) (d : Int) (hd : 0 < d) :
    0 < parseEnvInt value d := by
  cases value with
  | none => exact hd
  | some v =>
    simp only [parseEnvInt]
    by_cases h1 : v = ""
    · rw [if_pos h1]
      exact hd
    · rw [if_neg h1]
      by_cases h2 : jsTrim v = ""
      · rw [if_pos h2]
        exact hd
      · rw [if_neg h2]
        cases hp : jsParseInt10 v with
        | none => exact hd
        | some parsed =>
          by_cases h3 : parsed ≤ 0
          · simp only [if_pos h3]
            exact hd
          · simp only [if_neg h3]
            omega

theorem parseEnvInt_default_of_bad (v : String) (d : Int) :
    (jsParseInt10 v = none → parseEnvInt (some v) d = d) ∧
      (∀ parsed : Int, jsParseInt10 v = some parsed → parsed ≤ 0 →
        parseEnvInt (some v) d = d) := by
  constructor
  · intro hnan
    simp only [parseEnvInt]
    by_cases h1 : v = ""
    · rw [if_pos h1]
    · rw [if_neg h1]
      by_cases h2 : jsTrim v = ""
      · rw [if_pos h2]
      · rw [if_neg h2, hnan]
  · intro parsed hp hle
    simp only [parseEnvInt]
    by_cases h1 : v = ""
    · rw [if_pos h1]
    · rw [if_neg h1]
      by_cases h2 : jsTrim v = ""
      · rw [if_pos h2]
      · rw [if_neg h2, hp]
        simp only [if_pos hle]

/-- Claim C3: `resolveConfig` is total (the embedding is a plain function — no
error path exists in the source either) and always yields positive timeouts:
the upstream timeout defaults to 30000 and the media-bridge timeout to 15000;
an absent value, a non-numeric value (`parseInt` gives `NaN`), and a zero or
negative parse all fall back to the respective default rather than flowing
through. -/
theorem resolveConfig_timeouts (env : EnvM) :
    (0 < (resolveConfig env).upstreamTimeoutMs ∧
      0 < (resolveConfig env).torrTimeoutMs) ∧
    (env.UPSTREAM_TIMEOUT_MS = none →
      (resolveConfig env).upstreamTimeoutMs = 30000) ∧
    (env.TORRSERVER_TIMEOUT_MS = none →
      (resolveConfig env).torrTimeoutMs = 15000) ∧
    (∀ v : String, env.UPSTREAM_TIMEOUT_MS = some v →
      (jsParseInt10 v = none →
        (resolveConfig env).upstreamTimeoutMs = 30000) ∧
      (∀ parsed : Int, jsParseInt10 v = some parsed → parsed ≤ 0 →
        (resolveConfig env).upstreamTimeoutMs = 30000)) ∧
    (∀ v : String, env.TORRSERVER_TIMEOUT_MS = some v →
      (jsParseInt10 v = none →
        (resolveConfig env).torrTimeoutMs = 15000) ∧
      (∀ parsed : Int, jsParseInt10 v = some parsed → parsed ≤ 0 →
        (resolveConfig env).torrTimeoutMs = 15000)) := by
  refine ⟨⟨parseEnvInt_pos _ _ (by decide), parseEnvInt_pos _ _ (by decide)⟩,
    ?_, ?_, ?_, ?_⟩
  · intro hnone
    show parseEnvInt env.UPSTREAM_TIMEOUT_MS DEFAULT_UPSTREAM_TIMEOUT_MS =
      30000
    rw [hnone]
    rfl
  · intro hnone
    show parseEnvInt env.TORRSERVER_TIMEOUT_MS DEFAULT_TORRSERVER_TIMEOUT_MS =
      15000
    rw [hnone]
    rfl
  · intro v hv
    constructor
    · intro hnan
      show parseEnvInt env.UPSTREAM_TIMEOUT_MS DEFAULT_UPSTREAM_TIMEOUT_MS =
        30000
      rw [hv]
      exact (parseEnvInt_default_of_bad v _).1 hnan
    · intro parsed hp hle
      show parseEnvInt env.UPSTREAM_TIMEOUT_MS DEFAULT_UPSTREAM_TIMEOUT_MS =
        30000
      rw [hv]
      exact (parseEnvInt_default_of_bad v _).2 parsed hp hle
  · intro v hv
    constructor
    · intro hnan
      show parseEnvInt env.TORRSERVER_TIMEOUT_MS DEFAULT_TORRSERVER_TIMEOUT_MS
        = 15000
      rw [hv]
      exact (parseEnvInt_default_of_bad v _).1 hnan
    · intro parsed hp hle
      show parseEnvInt env.TORRSERVER_TIMEOUT_MS DEFAULT_TORRSERVER_TIMEOUT_MS
        = 15000
      rw [hv]
      exact (parseEnvInt_default_of_bad v _).2 parsed hp hle

/-- Witness for C3: a negative upstream value and a non-numeric media-bridge
value both fall back to their defaults, which are positive. -/
theorem resolveConfig_timeouts_witness :
    (resolveConfig
        ⟨none, none, some "-5", some "abc"⟩).upstreamTimeoutMs = 30000 ∧
      (resolveConfig
        ⟨none, none, some "-5", some "abc"⟩).torrTimeoutMs = 15000 ∧
      0 < (resolveConfig
        ⟨none, none, some "-5", some "abc"⟩).upstreamTimeoutMs := by
  have h := resolveConfig_timeouts ⟨none, none, some "-5", some "abc"⟩
  refine ⟨(h.2.2.2.1 "-5" rfl).2 (-5) (by decide) (by decide),
    (h.2.2.2.2 "abc" rfl).1 (by decide), h.1.1⟩

/-! ## `src/lib/constants.ts` — key-exempt direct paths -/

/-- `DIRECT_API_KEY_EXEMPT_PREFIXES` from `src/lib/constants.ts` (the direct
paths always allowed without an API key). -/
def directApiKeyExemptList : List String := ["/lastupdatedb", "/health"]

/-- Embedding of `isDirectApiKeyExempt(path)` from `src/lib/constants.ts`:

    DIRECT_API_KEY_EXEMPT_PREFIXES.some((p) => path === p || path.startsWith(p + '/'));
-/
def isDirectApiKeyExempt (path : String) : Bool :=
  directApiKeyExemptList.any
    (fun p => path == p || strStartsWith path (p ++ "/"))

/-! ## `src/middleware/upstream.ts` — the generic-proxy stage's key gate -/

/-- What a pipeline stage did before reaching its main work: fell through to
the next stage, short-circuited with an error response (status and the `code`
field of the JSON envelope), or proceeded into the stage body (for the
generic-proxy stage: path decoding, mapping, and the upstream fetch — so a
`respond` result means no upstream fetch was performed). -/
inductive StageResult
| pass
| respond (status : Nat) (code : String)
| proceedToFetch
deriving DecidableEq, Repr

/-- Embedding of the guard section of the `upstream` middleware from
`src/middleware/upstream.ts`:

    if (!ctx.isApi && !ctx.direct) return;
    const apiKeyExempt = ctx.direct && isDirectApiKeyExempt(ctx.pathname);
    if ((ctx.isApi || ctx.direct) && !apiKeyExempt && ctx.apiKey.keyEnforced && !ctx.apiKey.keyValid)
      return errorResponse(ctx.locale, 'forbidden', 'forbidden', 403);

Everything after the guard (decode, mapping, `cachedFetch`) is abstracted as
`proceedToFetch`. -/
def upstreamGate (isApi direct : Bool) (pathname : String)
    (keyEnforced keyValid : Bool) : StageResult :=
  if !isApi && !direct then .pass
  else
    if (isApi || direct) && !(direct && isDirectApiKeyExempt pathname) &&
        keyEnforced && !keyValid then
      .respond 403 "forbidden"
    else .proceedToFetch

/-- Claim C6: on an API or direct-passthrough request whose path is not
key-exempt, enforced-and-invalid (including missing) key means the stage
answers 403 with code `forbidden` without reaching the fetch. -/
theorem upstreamGate_forbidden (isApi direct : Bool) (pathname : String)
    (keyValid : Bool)
    (hb : isApi = true ∨ direct = true)
    (hex : isDirectApiKeyExempt pathname = false)
    (hinvalid : keyValid = false) :
    upstreamGate isApi direct pathname true keyValid =
      .respond 403 "forbidden" := by
  unfold upstreamGate
  cases hb with
  | inl ha =>
    rw [ha]
    cases direct with
    | false =>
      rw [if_neg (by simp)]
      rw [if_pos (by simp [hinvalid])]
    | true =>
      rw [if_neg (by simp)]
      rw [if_pos (by simp [hex, hinvalid])]
  | inr hd =>
    rw [hd]
    cases isApi with
    | false =>
      rw [if_neg (by simp)]
      rw [if_pos (by simp [hex, hinvalid])]
    | true =>
      rw [if_neg (by simp)]
      rw [if_pos (by simp [hex, hinvalid])]

/-- Witness for C6: a direct `/sync` request with enforcement on and no valid
key is answered 403/forbidden. -/
theorem upstreamGate_forbidden_witness :
    upstreamGate false true "/sync" true false =
      StageResult.respond 403 "forbidden" :=
  upstreamGate_forbidden false true "/sync" false (Or.inr rfl) (by decide) rfl

/-! ## `src/middleware/conf.ts` — the config-endpoint stage's key gate -/

/-- The JSON flags merged into the conf payload: `requireApiKey` mirrors
enforcement and `apikey` is `true` (no key required), absent (`none`,
JS `undefined`: enforced but no key supplied) or the validity of the supplied
key. -/
structure ConfPayload where
  requireApiKey : Bool
  apikey : Option Bool
deriving DecidableEq, Repr

/-- Outcome of the `confEndpoint` middleware from `src/middleware/conf.ts`:
fall through (path not matched), 403 with `requireApiKey: true`, or the merged
JSON payload (the upstream conf fetch is best-effort and contributes no
decision). -/
inductive ConfResult
| pass
| respond403 (requireApiKey : Bool)
| payload (p : ConfPayload)
deriving DecidableEq, Repr

/-- Embedding of the decision logic of `confEndpoint` from
`src/middleware/conf.ts`:

    if (!ctx.isApi || !/\/conf\/?$/.test(ctx.pathname)) return;
    if (apiKey.keyEnforced && apiKey.suppliedKey && !apiKey.keyValid)
      return errorResponse(locale, 'forbidden', 'forbidden', 403, { requireApiKey: true });
    ...
    return json({ ...baseConf, requireApiKey: apiKey.keyEnforced,
      apikey: apiKey.keyEnforced ? (apiKey.suppliedKey ? apiKey.keyValid : undefined) : true,
      path: url.pathname });

`suppliedKey` is `null` or the query value; JS truthiness makes `null` and the
empty string behave alike. -/
def confEndpointGate (isApi : Bool) (pathname : String) (keyEnforced : Bool)
    (suppliedKey : Option String) (keyValid : Bool) : ConfResult :=
  if !isApi || !(strEndsWith pathname "/conf" || strEndsWith pathname "/conf/")
    then .pass
  else if keyEnforced && jsTruthy suppliedKey && !keyValid then
    .respond403 true
  else
    .payload
      { requireApiKey := keyEnforced
      , apikey :=
          if keyEnforced then
            (if jsTruthy suppliedKey then some keyValid else none)
          else some true }

/-- Claim C8: when the conf stage matches, a request without a supplied key is
never rejected — even with enforcement on it gets the JSON payload, whose
`requireApiKey`/`apikey` fields carry the enforcement signal — and the 403
(with `requireApiKey: true`) happens exactly when enforcement is on, a
(truthy) key was supplied and that key is invalid. -/
theorem confEndpointGate_spec (isApi : Bool) (pathname : String)
    (keyEnforced : Bool) (suppliedKey : Option String) (keyValid : Bool)
    (hApi : isApi = true)
    (hPath : (strEndsWith pathname "/conf" || strEndsWith pathname "/conf/") =
      true) :
    (suppliedKey = none →
      confEndpointGate isApi pathname keyEnforced suppliedKey keyValid =
        .payload ⟨keyEnforced, if keyEnforced then none else some true⟩) ∧
    (confEndpointGate isApi pathname keyEnforced suppliedKey keyValid =
        .respond403 true ↔
      (keyEnforced = true ∧ jsTruthy suppliedKey = true ∧ keyValid = false)) := by
  have hmatch : (!isApi ||
      !(strEndsWith pathname "/conf" || strEndsWith pathname "/conf/")) =
        false := by
    rw [hApi, hPath]
    rfl
  constructor
  · intro hnone
    unfold confEndpointGate
    rw [hmatch, if_neg (by simp)]
    rw [hnone]
    have : jsTruthy (none : Option String) = false := by decide
    rw [if_neg (by simp [this])]
    cases keyEnforced with
    | true => simp [this]
    | false => simp [this]
  · unfold confEndpointGate
    rw [hmatch, if_neg (by simp)]
    by_cases hc : (keyEnforced && jsTruthy suppliedKey && !keyValid) = true
    · rw [if_pos hc]
      simp only [Bool.and_eq_true, Bool.not_eq_true'] at hc
      exact ⟨fun _ => ⟨hc.1.1, hc.1.2, hc.2⟩, fun _ => rfl⟩
    · rw [if_neg hc]
      constructor
      · intro hpay
        exact ConfResult.noConfusion hpay
      · intro ⟨h1, h2, h3⟩
        exact absurd (by rw [h1, h2, h3]; rfl) hc

/-- Witness for C8: with enforcement on and no key supplied, the conf stage
returns the payload (not a 403) and signals the requirement in it; with a
wrong key supplied it returns the 403. -/
theorem confEndpointGate_spec_witness :
    confEndpointGate true "/api/conf" true none false =
        ConfResult.payload ⟨true, none⟩ ∧
      confEndpointGate true "/api/conf" true (some "WRONG") false =
        ConfResult.respond403 true := by
  have h1 := confEndpointGate_spec true "/api/conf" true none false rfl
    (by decide)
  have h2 := confEndpointGate_spec true "/api/conf" true (some "WRONG") false
    rfl (by decide)
  exact ⟨h1.1 rfl, h2.2.mpr ⟨rfl, by decide, rfl⟩⟩

/-! ## `src/lib/torrserver.ts` — validation of the add operation -/

/-- The parsed JSON body of `POST /api/torrserver/add` (`TorrAddRequestBody`);
`password` arrives already stringified, mirroring `(body.password ?? '').toString()`. -/
structure TorrAddBody where
  magnet : Option String := none
  url : Option String := none
  username : Option String := none
  password : Option String := none
deriving DecidableEq, Repr

/-- What `handleTorrServerAdd` does after parsing the body: a 400 `badRequest`
carrying the validation code (`invalid_magnet`, `missing_url`,
`auth_credentials_mismatch`, `invalid_url` — the code reaches the envelope as
the message key of the 400 response), or the single JSON POST attempt against
the media server.  A `badRequest` outcome therefore implies zero network calls
to the media server. -/
inductive TorrAddStep
| badRequest (code : String)
| networkAttempt (magnet tsUrl user pass : String)
deriving DecidableEq, Repr

/-- `raw.trim().replace(/\/$/, '')` inside `normalizeTorrServerUrl`: one
trailing slash removed. -/
def stripTrailingSlash (s : String) : String :=
  if strEndsWith s "/" then strDropRight s 1 else s

/-- Embedding of the validation sequence of `handleTorrServerAdd` from
`src/lib/torrserver.ts` (after path/method/JSON-parsing checks):

    const magnet = ((body && body.magnet) || '').trim();
    const tsUrlRaw = ((body && body.url) || '').trim();
    const user = ((body && body.username) || '').trim();
    const pass = (body && (body.password ?? '')).toString();
    if (!magnet || !magnet.startsWith(MAGNET_PREFIX)) return badRequest(locale, 'invalid_magnet');
    if (!tsUrlRaw) return badRequest(locale, 'missing_url');
    if ((user && !pass) || (pass && !user)) return badRequest(locale, 'auth_credentials_mismatch');
    try { tsUrl = normalizeTorrServerUrl(tsUrlRaw); } catch (err) { return badRequest(locale, err.message); }
    ...single fetchWithTimeout POST...

The WHATWG `new URL(...)` parser is a platform primitive, abstracted as the
`parseOk` oracle; `normalizeTorrServerUrl` rethrows `invalid_url` when it
fails (its `missing_url` branch is unreachable here because emptiness was
already checked on the same trimmed string). -/
def handleTorrServerAddValidate (parseOk : String → Bool)
    (body : TorrAddBody) : TorrAddStep :=
  let magnet := jsTrim (body.magnet.getD "")
  let tsUrlRaw := jsTrim (body.url.getD "")
  let user := jsTrim (body.username.getD "")
  let pass := body.password.getD ""
  if magnet = "" ∨ strStartsWith magnet "magnet:" = false then
    .badRequest "invalid_magnet"
  else if tsUrlRaw = "" then .badRequest "missing_url"
  else if (user ≠ "" ∧ pass = "") ∨ (pass ≠ "" ∧ user = "") then
    .badRequest "auth_credentials_mismatch"
  else if parseOk (stripTrailingSlash tsUrlRaw) = false then
    .badRequest "invalid_url"
  else .networkAttempt magnet (stripTrailingSlash tsUrlRaw) user pass

/-- Claim C5: the validation codes and their precedence for the add endpoint —
a missing or non-`magnet:`-prefixed magnet gives `invalid_magnet` regardless of
the other fields; then a missing URL gives `missing_url`; then a one-sided
username/password pair gives `auth_credentials_mismatch`; then an unparseable
URL gives `invalid_url`.  Each failure is a `badRequest` outcome, i.e. the
single network attempt constructor is never reached. -/
theorem handleTorrServerAddValidate_spec (parseOk : String → Bool)
    (body : TorrAddBody) :
    ((jsTrim (body.magnet.getD "") = "" ∨
        strStartsWith (jsTrim (body.magnet.getD "")) "magnet:" = false) →
      handleTorrServerAddValidate parseOk body =
        .badRequest "invalid_magnet") ∧
    (strStartsWith (jsTrim (body.magnet.getD "")) "magnet:" = true →
      jsTrim (body.magnet.getD "") ≠ "" →
      jsTrim (body.url.getD "") = "" →
      handleTorrServerAddValidate parseOk body = .badRequest "missing_url") ∧
    (strStartsWith (jsTrim (body.magnet.getD "")) "magnet:" = true →
      jsTrim (body.magnet.getD "") ≠ "" →
      jsTrim (body.url.getD "") ≠ "" →
      ((jsTrim (body.username.getD "") ≠ "" ∧ body.password.getD "" = "") ∨
        (body.password.getD "" ≠ "" ∧ jsTrim (body.username.getD "") = "")) →
      handleTorrServerAddValidate parseOk body =
        .badRequest "auth_credentials_mismatch") ∧
    (strStartsWith (jsTrim (body.magnet.getD "")) "magnet:" = true →
      jsTrim (body.magnet.getD "") ≠ "" →
      jsTrim (body.url.getD "") ≠ "" →
      ¬((jsTrim (body.username.getD "") ≠ "" ∧ body.password.getD "" = "") ∨
        (body.password.getD "" ≠ "" ∧ jsTrim (body.username.getD "") = "")) →
      parseOk (stripTrailingSlash (jsTrim (body.url.getD ""))) = false →
      handleTorrServerAddValidate parseOk body = .badRequest "invalid_url") ∧
    (∀ code : String, handleTorrServerAddValidate parseOk body =
        .badRequest code →
      ∀ m u us pw : String, handleTorrServerAddValidate parseOk body ≠
        .networkAttempt m u us pw) := by
  refine ⟨?_, ?_, ?_, ?_, ?_⟩
  · intro hmag
    unfold handleTorrServerAddValidate
    rw [if_pos hmag]
  · intro hpre hne hurl
    unfold handleTorrServerAddValidate
    rw [if_neg (by simp [hpre, hne]), if_pos hurl]
  · intro hpre hne hurl hcred
    unfold handleTorrServerAddValidate
    rw [if_neg (by simp [hpre, hne]), if_neg hurl, if_pos hcred]
  · intro hpre hne hurl hcred hparse
    unfold handleTorrServerAddValidate
    rw [if_neg (by simp [hpre, hne]), if_neg hurl, if_neg hcred, if_pos hparse]
  · intro code hbad m u us pw hnet
    rw [hbad] at hnet
    exact TorrAddStep.noConfusion hnet

/-- Witness for C5, exercising all four codes at concrete bodies (with a
parser oracle rejecting `not a url`): missing magnet → `invalid_magnet` even
with everything else valid; valid magnet without URL → `missing_url`; username
without password → `auth_credentials_mismatch`; unparseable URL →
`invalid_url`. -/
theorem handleTorrServerAddValidate_spec_witness :
    handleTorrServerAddValidate (fun s => !(s == "not a url"))
        ⟨none, some "http://ts:8090", some "u", some "p"⟩ =
      TorrAddStep.badRequest "invalid_magnet" ∧
    handleTorrServerAddValidate (fun s => !(s == "not a url"))
        ⟨some "magnet:?xt=urn:btih:abc", none, none, none⟩ =
      TorrAddStep.badRequest "missing_url" ∧
    handleTorrServerAddValidate (fun s => !(s == "not a url"))
        ⟨some "magnet:?xt=urn:btih:abc", some "http://ts:8090", some "u",
          none⟩ =
      TorrAddStep.badRequest "auth_credentials_mismatch" ∧
    handleTorrServerAddValidate (fun s => !(s == "not a url"))
        ⟨some "magnet:?xt=urn:btih:abc", some "not a url", none, none⟩ =
      TorrAddStep.badRequest "invalid_url" := by
  have h1 := (handleTorrServerAddValidate_spec (fun s => !(s == "not a url"))
    ⟨none, some "http://ts:8090", some "u", some "p"⟩).1 (by decide)
  have h2 := (handleTorrServerAddValidate_spec (fun s => !(s == "not a url"))
    ⟨some "magnet:?xt=urn:btih:abc", none, none, none⟩).2.1 (by decide)
    (by decide) (by decide)
  have h3 := (handleTorrServerAddValidate_spec (fun s => !(s == "not a url"))
    ⟨some "magnet:?xt=urn:btih:abc", some "http://ts:8090", some "u",
      none⟩).2.2.1 (by decide) (by decide) (by decide) (by decide)
  have h4 := (handleTorrServerAddValidate_spec (fun s => !(s == "not a url"))
    ⟨some "magnet:?xt=urn:btih:abc", some "not a url", none,
      none⟩).2.2.2.1 (by decide) (by decide) (by decide) (by decide)
    (by decide)
  exact ⟨h1, h2, h3, h4⟩
